import Mathlib

/-!
Verification of the Twilio <-> Gemini voice-bridge repository.

The repository bridges a telephony media stream (8 kHz G.711 mu-law over
JSON frames) and a generative-audio peer (16/24 kHz linear PCM over JSON
frames).  Several variants of the bridge exist in the repository
(`src/server.js` contains two, plus `src/unnamed/part_000` .. `part_004`);
each variant is embedded separately below, faithfully to its own source.

Numbers follow JavaScript semantics: bitwise operators work on 32-bit
two's-complement integers, `Int16Array` stores truncate to 16 bits,
`Uint8Array` / `Buffer` stores truncate to 8 bits.  Buffers are modelled
as `List Nat` of byte values, 16-bit samples as `List Int`.
-/

namespace GV

/-! ## JavaScript 32-bit integer semantics -/

/-- Low 32 bits of an integer, as a natural number (JS `ToUint32`). -/
def toUint32 (x : Int) : Nat := (x % 4294967296).toNat

/-- Reinterpret a 32-bit unsigned value as signed two's complement. -/
def ofUint32 (n : Nat) : Int := if n < 2147483648 then (n : Int) else (n : Int) - 4294967296

/-- JS `ToInt32`: wrap an integer into [-2^31, 2^31). -/
def toInt32 (x : Int) : Int := ofUint32 (toUint32 x)

/-- JS bitwise AND on 32-bit two's-complement integers. -/
def jsAnd (a b : Int) : Int := ofUint32 (Nat.land (toUint32 a) (toUint32 b))

/-- JS bitwise OR on 32-bit two's-complement integers. -/
def jsOr (a b : Int) : Int := ofUint32 (Nat.lor (toUint32 a) (toUint32 b))

/-- JS bitwise NOT (`~a`) on 32-bit two's-complement integers. -/
def jsNot (a : Int) : Int := -(toInt32 a) - 1

/-- JS arithmetic shift right (`a >> n`): floor division of the 32-bit value. -/
def jsShr (a : Int) (n : Nat) : Int := Int.fdiv (toInt32 a) (2 ^ n)

/-- JS shift left (`a << n`) with 32-bit wraparound. -/
def jsShl (a : Int) (n : Nat) : Int := toInt32 (toInt32 a * 2 ^ n)

/-- `Int16Array` store semantics: truncate to 16 bits, two's complement. -/
def toInt16 (x : Int) : Int := (x + 32768) % 65536 - 32768

/-! ## Mu-law codec (`encodeMuLaw` / `decodeMuLaw`, identical in all variants) -/

/-- `CLIP` constant of the codec. -/
def CLIP : Int := 32635

/-- `BIAS` constant (0x84) of the codec. -/
def BIAS : Int := 132

/-- The exponent-search loop of `encodeMuLaw`:
`for (let expMask = 0x4000; (sample & expMask) === 0 && exponent > 0; exponent--, expMask >>= 1)`.
Exponent value `e` corresponds to mask `2^(e+7)`. -/
def muLawExpAux (s : Int) : Nat → Nat
  | 0 => 0
  | e + 1 => if jsAnd s (2 ^ (e + 8) : Nat) ≠ 0 then e + 1 else muLawExpAux s e

/-- Exponent chosen by the encoder for the biased magnitude `s`. -/
def muLawExp (s : Int) : Nat := muLawExpAux s 7

/-- `encodeMuLaw(sample)` as the raw JS return value (a negative number,
being `~packed`). -/
def encodeMuLaw (sample : Int) : Int :=
  let sign := jsAnd (jsShr sample 8) 128
  let s1 := if sign ≠ 0 then -sample else sample
  let s2 := if s1 > CLIP then CLIP else s1
  let s3 := s2 + BIAS
  let exponent := muLawExp s3
  let mantissa := jsAnd (jsShr s3 (exponent + 3)) 15
  jsNot (jsOr (jsOr sign (jsShl (exponent : Int) 4)) mantissa)

/-- `encodeMuLaw` as observed on the wire: the result of storing the raw
return value into a `Uint8Array` (truncation mod 256). -/
def encodeMuLawByte (sample : Int) : Nat := ((encodeMuLaw sample) % 256).toNat

/-- `decodeMuLaw(muLawByte)` as the raw JS return value, before any
`Int16Array` store.  Note the reconstruction shift is `12 - exponent`
exactly as in the source. -/
def decodeMuLaw (muLawByte : Int) : Int :=
  let m := jsNot muLawByte
  let sign := jsAnd m 128
  let exponent := jsAnd (jsShr m 4) 7
  let mantissa := jsAnd m 15
  let sample := jsShl (2 * mantissa + 33) (12 - exponent).toNat
  let sample := sample - BIAS
  if sign = 0 then sample else -sample

/-- The decoded sample as observed after an `Int16Array` store. -/
def decodeMuLawI16 (b : Nat) : Int := toInt16 (decodeMuLaw (b : Int))

/-- Quantization step of the mu-law segment a sample falls in: segment
`e` holds decoded magnitudes spaced `2^(e+3)` apart (8 in segment 0,
doubling with each segment - logarithmic companding). -/
def quantStep (sample : Int) : Int :=
  let sign := jsAnd (jsShr sample 8) 128
  let s1 := if sign ≠ 0 then -sample else sample
  let s2 := if s1 > CLIP then CLIP else s1
  (2 : Int) ^ (muLawExp (s2 + BIAS) + 3)

/-- Round-trip of one int16 sample through the codec, as the pipelines
observe it (encode, `Uint8Array` store, decode, `Int16Array` store). -/
def muLawRoundTrip (x : Int) : Int := decodeMuLawI16 (encodeMuLawByte x)

/-! ## Buffers as byte lists, `Int16Array` views -/

/-- `new Int16Array(buffer.buffer, byteOffset, buffer.length / 2)`:
read little-endian 16-bit samples; `length / 2` goes through JS `ToIndex`
which truncates, so a trailing odd byte is ignored. -/
def bytesToI16 : List Nat → List Int
  | a :: b :: rest => toInt16 ((a : Int) + 256 * (b : Int)) :: bytesToI16 rest
  | _ => []

/-- `Buffer.from(int16Array.buffer)`: serialize samples little-endian;
each store truncates to 16 bits. -/
def i16ToBytes : List Int → List Nat
  | [] => []
  | s :: rest => ((s % 65536).toNat) % 256 :: ((s % 65536).toNat) / 256 :: i16ToBytes rest

/-! ## Resamplers -/

/-- JS `Math.round(n / d)` for natural `n`, positive `d` (round half up). -/
def jsRoundDiv (n d : Nat) : Nat := (2 * n + d) / (2 * d)

/-- `upsampleLinear` (server.js, 8000 -> 16000, ratio 2) at sample level.
`newLength = Math.round(n * 2) = 2n`; even outputs copy `input[index]`,
odd outputs are `Math.round((a+b)/2)` where `b = input[index+1] || a`
(JS falsiness: out-of-range `undefined` and the value `0` both fall back
to `a`). `Math.round` of an exact half rounds toward positive infinity. -/
def upsampleLinearSamples (xs : List Int) : List Int :=
  (List.range (2 * xs.length)).map fun i =>
    let index := i / 2
    let a := xs.getD index 0
    let b := if xs.getD (index + 1) 0 = 0 then a else xs.getD (index + 1) 0
    if i % 2 = 0 then a else Int.fdiv (a + b + 1) 2

/-- `downsampleLinear` (server.js, 24000 -> 8000, ratio 3) at sample level:
`newLength = Math.round(n / 3)`, `output[i] = input[3i]`. -/
def downsampleLinearSamples (xs : List Int) : List Int :=
  (List.range (jsRoundDiv xs.length 3)).map fun i => xs.getD (3 * i) 0

/-- `downsample24kTo8k` (part_000) / `downsampleTo8k` (part_001/003/004):
`newLength = Math.floor(n / 3)`, `output[i] = input[3i]`. -/
def downsample3Samples (xs : List Int) : List Int :=
  (List.range (xs.length / 3)).map fun i => xs.getD (3 * i) 0

/-- `upsample8kTo16k` (part_000): duplicate-and-average with
`Math.floor((current + next) / 2)`, last sample clamped against itself. -/
def upsampleAvgFloorSamples : List Int → List Int
  | [] => []
  | [x] => [x, Int.fdiv (x + x) 2]
  | x :: y :: rest => x :: Int.fdiv (x + y) 2 :: upsampleAvgFloorSamples (y :: rest)

/-- `upsampleTo16k` (part_003): duplicate-and-average with
`Math.round((current + next) / 2)`, last sample clamped against itself. -/
def upsampleAvgRoundSamples : List Int → List Int
  | [] => []
  | [x] => [x, Int.fdiv (x + x + 1) 2]
  | x :: y :: rest => x :: Int.fdiv (x + y + 1) 2 :: upsampleAvgRoundSamples (y :: rest)

/-- `upsampleTo16k` (part_001/part_004) and the duplication step of
`mulaw8kToPcm16k` (part_002): sample-and-hold doubling. -/
def upsampleDupSamples : List Int → List Int
  | [] => []
  | x :: rest => x :: x :: upsampleDupSamples rest

/-! ## Byte-level pipeline legs -/

/-- `upsampleLinear` on a byte buffer (server.js). -/
def upsampleLinearBuf (b : List Nat) : List Nat :=
  i16ToBytes (upsampleLinearSamples (bytesToI16 b))

/-- `downsampleLinear` on a byte buffer (server.js). -/
def downsampleLinearBuf (b : List Nat) : List Nat :=
  i16ToBytes (downsampleLinearSamples (bytesToI16 b))

/-- `downsample24kTo8k` / `downsampleTo8k` on a byte buffer. -/
def downsample3Buf (b : List Nat) : List Nat :=
  i16ToBytes (downsample3Samples (bytesToI16 b))

/-- `pcmToMulaw`: view the buffer as int16 samples, encode each. -/
def pcmToMulawBuf (b : List Nat) : List Nat :=
  (bytesToI16 b).map encodeMuLawByte

/-- `mulawToPcm`: decode each byte into an `Int16Array`, serialize. -/
def mulawToPcmBuf (b : List Nat) : List Nat :=
  i16ToBytes (b.map fun u => decodeMuLaw (u : Int))

/-- `upsampleTo16k` of part_001/part_004 on a byte buffer. -/
def upsampleDupBuf (b : List Nat) : List Nat :=
  i16ToBytes (upsampleDupSamples (bytesToI16 b))

/-- `upsampleTo16k` of part_003 on a byte buffer. -/
def upsampleAvgRoundBuf (b : List Nat) : List Nat :=
  i16ToBytes (upsampleAvgRoundSamples (bytesToI16 b))

/-! ## Table-based decoder (part_002 / part_004) -/

/-- The 256-entry `MU_LAW_TABLE` of part_002 (also shipped in part_004). -/
def MU_LAW_TABLE : List Int := [
  -32124, -31100, -30076, -29052, -28028, -27004, -25980, -24956,
  -23932, -22908, -21884, -20860, -19836, -18812, -17788, -16764,
  -15996, -15484, -14972, -14460, -13948, -13436, -12924, -12412,
  -11900, -11388, -10876, -10364, -9852, -9340, -8828, -8316,
  -7932, -7676, -7420, -7164, -6908, -6652, -6396, -6140,
  -5884, -5628, -5372, -5116, -4860, -4604, -4348, -4092,
  -3900, -3772, -3644, -3516, -3388, -3260, -3132, -3004,
  -2876, -2748, -2620, -2492, -2364, -2236, -2108, -1980,
  -1884, -1820, -1756, -1692, -1628, -1564, -1500, -1436,
  -1372, -1308, -1244, -1180, -1116, -1052, -988, -924,
  -876, -844, -812, -780, -748, -716, -684, -652,
  -620, -588, -556, -524, -492, -460, -428, -396,
  -372, -356, -340, -324, -308, -292, -276, -260,
  -244, -228, -212, -196, -180, -164, -148, -132,
  -120, -112, -104, -96, -88, -80, -72, -64,
  -56, -48, -40, -32, -24, -16, -8, 0,
  32124, 31100, 30076, 29052, 28028, 27004, 25980, 24956,
  23932, 22908, 21884, 20860, 19836, 18812, 17788, 16764,
  15996, 15484, 14972, 14460, 13948, 13436, 12924, 12412,
  11900, 11388, 10876, 10364, 9852, 9340, 8828, 8316,
  7932, 7676, 7420, 7164, 6908, 6652, 6396, 6140,
  5884, 5628, 5372, 5116, 4860, 4604, 4348, 4092,
  3900, 3772, 3644, 3516, 3388, 3260, 3132, 3004,
  2876, 2748, 2620, 2492, 2364, 2236, 2108, 1980,
  1884, 1820, 1756, 1692, 1628, 1564, 1500, 1436,
  1372, 1308, 1244, 1180, 1116, 1052, 988, 924,
  876, 844, 812, 780, 748, 716, 684, 652,
  620, 588, 556, 524, 492, 460, 428, 396,
  372, 356, 340, 324, 308, 292, 276, 260,
  244, 228, 212, 196, 180, 164, 148, 132,
  120, 112, 104, 96, 88, 80, 72, 64,
  56, 48, 40, 32, 24, 16, 8, 0]

/-- The table-based decode of one wire byte:
`pcm8k[i] = MU_LAW_TABLE[mulaw[i] ^ 0xff]` (part_002's `mulaw8kToPcm16k`). -/
def tableDecode (b : Nat) : Int := MU_LAW_TABLE.getD (b ^^^ 255) 0

/-- `mulaw8kToPcm16k` (part_002): table-decode each byte, then
sample-and-hold duplicate to 16 kHz, serialized as bytes. -/
def mulaw8kToPcm16kBuf (b : List Nat) : List Nat :=
  i16ToBytes (upsampleDupSamples (b.map tableDecode))

/-- `pcm24kToMulaw8k` (part_002/part_004 second half): take every third
sample from the int16 view and encode it: `mulaw[i] = encodeMuLaw(pcm[i*3])`
with output length `Math.floor(n / 3)`. -/
def pcm24kToMulaw8kBuf (b : List Nat) : List Nat :=
  let pcm := bytesToI16 b
  (List.range (pcm.length / 3)).map fun i => encodeMuLawByte (pcm.getD (3 * i) 0)

/-! ## Protocol messages

Decoded JSON frames of the two channels.  Base64 payloads are modelled
directly as byte lists (the base64 codec is bijective and irrelevant to
the claims). -/

/-- One `inlineData` object of a model-turn part. -/
structure InlineData where
  mimeType : String
  data : List Nat
deriving DecidableEq

/-- One part of `serverContent.modelTurn.parts`. -/
structure GPart where
  inlineData : Option InlineData
deriving DecidableEq

/-- The `serverContent` envelope of an audio-peer message. -/
structure ServerContent where
  modelTurn : Option (List GPart)
  interrupted : Bool
  turnComplete : Bool
deriving DecidableEq

/-- A decoded message from the audio peer.  `error` models the `error`
key checked by part_002. -/
structure GeminiMsg where
  setupComplete : Bool
  error : Bool
  serverContent : Option ServerContent
deriving DecidableEq

/-- A decoded telephony frame (`data.event` dispatch). `other` stands
for any frame whose `event` is none of the three recognized values. -/
inductive TwilioMsg where
  | start (streamSid : String)
  | media (payload : List Nat)
  | stop
  | other
deriving DecidableEq

/-- Outbound frames toward the telephony peer. -/
inductive TwilioOut where
  | media (streamSid : String) (payload : List Nat)
  | clear (streamSid : String)
deriving DecidableEq

/-- Outbound frames toward the audio peer: the session-setup message, the
scripted greeting turn, a `realtimeInput.mediaChunks` audio message
(camelCase variants) and an `input_audio_buffer` audio message (part_002). -/
inductive GeminiOut where
  | setup
  | greeting
  | realtimeAudio (payload : List Nat)
  | inputAudio (payload : List Nat)
deriving DecidableEq

/-- Every observable action of a session handler. -/
inductive Out where
  | toTwilio (f : TwilioOut)
  | toGemini (g : GeminiOut)
  | closeGemini
deriving DecidableEq

/-- Inbound events a session can process: the audio-peer socket opening,
an audio-peer message, a telephony message. -/
inductive Ev where
  | geminiOpen
  | gemini (m : GeminiMsg)
  | twilio (m : TwilioMsg)
deriving DecidableEq

/-- Interleave a step function over a list of inbound events,
concatenating the emitted outputs (the single-threaded event loop: each
event is fully processed before the next). -/
def runEvents {σ : Type} (step : σ → Ev → σ × List Out) : σ → List Ev → σ × List Out
  | st, [] => (st, [])
  | st, e :: rest =>
    let p := step st e
    let q := runEvents step p.1 rest
    (q.1, p.2 ++ q.2)

/-! ## Audio-peer message handlers (downlink direction) -/

/-- The `modelTurn.parts.forEach` loop shared verbatim by server.js
variant 1, part_000, part_003 and part_004: for each part carrying
`inlineData` with a mime type starting in `audio/pcm`, if `streamSid` is
truthy (JS: non-null and non-empty), emit a `media` frame whose payload
is the converted audio. -/
def partFrames (convert : List Nat → List Nat) (sid : Option String) (parts : List GPart) : List TwilioOut :=
  parts.filterMap fun p =>
    match p.inlineData with
    | none => none
    | some d =>
      if d.mimeType.startsWith ("audio/pcm") then
        match sid with
        | some s => if s != "" then some (TwilioOut.media s (convert d.data)) else none
        | none => none
      else none

/-- `geminiWs.on('message')` of server.js variant 1 (lines 67-108):
model-turn audio parts are transcoded (`downsampleLinear` then
`pcmToMulaw`) and forwarded; the `interrupted` and `turnComplete`
branches only write log lines and emit nothing. -/
def handleGemini_server (sid : Option String) (msg : GeminiMsg) : List TwilioOut :=
  match msg.serverContent with
  | none => []
  | some sc =>
    match sc.modelTurn with
    | none => []
    | some parts => partFrames (fun d => pcmToMulawBuf (downsampleLinearBuf d)) sid parts

/-- `geminiWs.on('message')` of part_000 (lines 67-113): model-turn audio
parts are transcoded (`downsample24kTo8k` then `pcmToMulaw`) and
forwarded; then, if `serverContent.interrupted` and `streamSid` is
truthy, a `clear` frame with the bound streamSid is sent.  The
`isAiSpeaking` flag set here only gates the telephony-side handler and
does not affect these outputs.  part_003's and part_004's handlers are
the same code. -/
def handleGemini_part000 (sid : Option String) (msg : GeminiMsg) : List TwilioOut :=
  let mediaFrames :=
    match msg.serverContent with
    | none => []
    | some sc =>
      match sc.modelTurn with
      | none => []
      | some parts => partFrames (fun d => pcmToMulawBuf (downsample3Buf d)) sid parts
  let clearFrames :=
    match msg.serverContent with
    | none => []
    | some sc =>
      if sc.interrupted then
        match sid with
        | some s => if s != "" then [TwilioOut.clear s] else []
        | none => []
      else []
  mediaFrames ++ clearFrames

/-- Process a sequence of audio-peer messages with a fixed bound
streamSid (the audio-peer handler never rebinds it). -/
def runGemini (h : Option String → GeminiMsg → List TwilioOut) (sid : Option String) : List GeminiMsg → List TwilioOut
  | [] => []
  | m :: rest => h sid m ++ runGemini h sid rest

/-! ## Session model: server.js variant 1 (lines 35-145) -/

/-- Mutable session state of server.js variant 1 and of part_001:
`streamSid` (null before `start`) and whether the audio-peer socket is
open (`geminiWs.readyState === WebSocket.OPEN`). -/
structure StateS where
  streamSid : Option String
  wsOpen : Bool
deriving DecidableEq

/-- Initial state: no streamSid, audio-peer socket still connecting. -/
def initS : StateS := { streamSid := none, wsOpen := false }

/-- `connection.socket.on('message')` of server.js variant 1 (lines
113-144): `start` binds the streamSid; `media` (when the audio-peer
socket is open - there is no readiness guard in this variant) transcodes
with `mulawToPcm` then `upsampleLinear` and forwards; `stop` closes the
audio-peer socket. -/
def handleTwilio_server (st : StateS) (m : TwilioMsg) : StateS × List Out :=
  match m with
  | .start s => ({ st with streamSid := some s }, [])
  | .media payload =>
    if st.wsOpen then
      (st, [Out.toGemini (GeminiOut.realtimeAudio (upsampleLinearBuf (mulawToPcmBuf payload)))])
    else (st, [])
  | .stop => ({ st with wsOpen := false }, [Out.closeGemini])
  | .other => (st, [])

/-- One inbound event of the server.js variant-1 session: on socket open
the setup message and the scripted greeting are sent. -/
def stepS (st : StateS) : Ev → StateS × List Out
  | .geminiOpen => ({ st with wsOpen := true }, [Out.toGemini GeminiOut.setup, Out.toGemini GeminiOut.greeting])
  | .gemini m => (st, (handleGemini_server st.streamSid m).map Out.toTwilio)
  | .twilio m => handleTwilio_server st m

/-! ## Session model: part_002 -/

/-- Mutable session state of part_002: adds the `geminiReady` readiness
flag set on `setupComplete`. -/
structure StateR where
  streamSid : Option String
  geminiReady : Bool
  wsOpen : Bool
deriving DecidableEq

/-- Initial part_002 state. -/
def initR : StateR := { streamSid := none, geminiReady := false, wsOpen := false }

/-- `geminiWs.on("message")` of part_002 (lines 75-104): an `error`
message is only logged; a first `setupComplete` sets `geminiReady`;
model-turn audio parts are forwarded only when parts exist and
`streamSid` is truthy, transcoded with `pcm24kToMulaw8k`. -/
def handleGemini_part002 (st : StateR) (m : GeminiMsg) : StateR × List Out :=
  if m.error then (st, [])
  else if m.setupComplete && !st.geminiReady then ({ st with geminiReady := true }, [])
  else
    match m.serverContent with
    | none => (st, [])
    | some sc =>
      match sc.modelTurn with
      | none => (st, [])
      | some parts =>
        match st.streamSid with
        | none => (st, [])
        | some s =>
          if s != "" then
            (st, parts.filterMap fun p =>
              match p.inlineData with
              | none => none
              | some d =>
                if d.mimeType.startsWith ("audio/pcm") then
                  some (Out.toTwilio (TwilioOut.media s (pcm24kToMulaw8kBuf d.data)))
                else none)
          else (st, [])

/-- `conn.socket.on("message")` of part_002 (lines 116-142): `start`
binds the streamSid; `media` is forwarded only when `geminiReady` is set
(pre-ready media is discarded) and the socket is open, transcoded with
`mulaw8kToPcm16k`; `stop` closes the audio-peer socket. -/
def handleTwilio_part002 (st : StateR) (m : TwilioMsg) : StateR × List Out :=
  match m with
  | .start s => ({ st with streamSid := some s }, [])
  | .media payload =>
    if st.geminiReady then
      if st.wsOpen then
        (st, [Out.toGemini (GeminiOut.inputAudio (mulaw8kToPcm16kBuf payload))])
      else (st, [])
    else (st, [])
  | .stop => ({ st with wsOpen := false }, [Out.closeGemini])
  | .other => (st, [])

/-- One inbound event of the part_002 session: on socket open only the
setup message is sent (the greeting is absent in this variant). -/
def stepR (st : StateR) : Ev → StateR × List Out
  | .geminiOpen => ({ st with wsOpen := true }, [Out.toGemini GeminiOut.setup])
  | .gemini m => handleGemini_part002 st m
  | .twilio m => handleTwilio_part002 st m

/-! ## part_001: unguarded telephony handler -/

/-- `connection.socket.on('message')` of part_001 (lines 83-106): `start`
binds the streamSid and, if the audio-peer socket is open, sends the
greeting turn; `media` transcodes with `mulawToPcm` then the
sample-and-hold `upsampleTo16k` and forwards; `stop` closes. -/
def handleTwilio_part001 (st : StateS) (m : TwilioMsg) : StateS × List Out :=
  match m with
  | .start s => ({ st with streamSid := some s }, if st.wsOpen then [Out.toGemini GeminiOut.greeting] else [])
  | .media payload =>
    if st.wsOpen then
      (st, [Out.toGemini (GeminiOut.realtimeAudio (upsampleDupBuf (mulawToPcmBuf payload)))])
    else (st, [])
  | .stop => ({ st with wsOpen := false }, [Out.closeGemini])
  | .other => (st, [])

/-- A raw telephony frame: `none` stands for a frame on which
`JSON.parse` (or a required-field access) throws. -/
abbrev RawFrame : Type := Option TwilioMsg

/-- server.js variant 1 wraps its telephony handler in `try { ... }
catch (e) { console.error(...) }`: a malformed frame is logged and
dropped before any state is touched, so the handler returns normally
with the state unchanged and no output. -/
def handleTwilioRaw_server (st : StateS) : RawFrame → StateS × List Out
  | none => (st, [])
  | some m => handleTwilio_server st m

/-- part_001's telephony handler calls `JSON.parse(msg)` with no
try/catch (line 84): a malformed frame makes the handler throw, modelled
as `Except.error`. -/
def handleTwilioRaw_part001 (st : StateS) : RawFrame → Except Unit (StateS × List Out)
  | none => Except.error ()
  | some m => Except.ok (handleTwilio_part001 st m)

/-- Run the guarded (server.js) telephony handler over a sequence of raw
frames. -/
def runTwilioRaw_server : StateS → List RawFrame → StateS × List Out
  | st, [] => (st, [])
  | st, f :: rest =>
    let p := handleTwilioRaw_server st f
    let q := runTwilioRaw_server p.1 rest
    (q.1, p.2 ++ q.2)

/-! ## Session model: part_003 (buffering variant) -/

/-- `BUFFER_SIZE = 5` of part_003. -/
def BUFFER_SIZE : Nat := 5

/-- Mutable session state of part_003: adds the `audioBuffer` of raw
mu-law chunks not yet forwarded. -/
structure StateB where
  streamSid : Option String
  wsOpen : Bool
  audioBuffer : List (List Nat)
deriving DecidableEq

/-- Initial part_003 state. -/
def initB : StateB := { streamSid := none, wsOpen := false, audioBuffer := [] }

/-- `Buffer.concat(audioBuffer)`. -/
def concatChunks : List (List Nat) → List Nat
  | [] => []
  | c :: rest => c ++ concatChunks rest

/-- The volume-boost loop of part_003 (lines 125-130).  `pcm8k` is a
`Buffer`, so `pcm8k[i]` indexes BYTES (0..255): each byte is multiplied
by 3, clamped against the int16 bounds (never triggered for byte
values), and written back to the buffer, which truncates mod 256. -/
def boostBytes (b : List Nat) : List Nat :=
  b.map fun u =>
    let val : Int := (u : Int) * 3
    let val := if val > 32767 then 32767 else val
    let val := if val < -32768 then -32768 else val
    ((val % 256).toNat)

/-- Steps C-E of part_003's media branch: decode mu-law, boost, upsample
to 16 kHz with rounding interpolation. -/
def transcodeBuffered (bytes : List Nat) : List Nat :=
  upsampleAvgRoundBuf (boostBytes (mulawToPcmBuf bytes))

/-- `connection.socket.on('message')` of part_003 (lines 103-151):
`media` chunks are pushed onto `audioBuffer`; only when the buffer has
reached `BUFFER_SIZE` chunks is the concatenation transcoded and sent as
one message, after which the buffer is cleared. -/
def handleTwilio_part003 (st : StateB) (m : TwilioMsg) : StateB × List Out :=
  match m with
  | .start s => ({ st with streamSid := some s }, [])
  | .media payload =>
    if st.wsOpen then
      let buf := st.audioBuffer ++ [payload]
      if BUFFER_SIZE ≤ buf.length then
        ({ st with audioBuffer := [] },
         [Out.toGemini (GeminiOut.realtimeAudio (transcodeBuffered (concatChunks buf)))])
      else ({ st with audioBuffer := buf }, [])
    else (st, [])
  | .stop => ({ st with wsOpen := false }, [Out.closeGemini])
  | .other => (st, [])

/-- One inbound event of the part_003 session.  Its audio-peer handler
(lines 67-98) is the same code as part_000's (media frames, then a
`clear` frame on interruption) and does not touch `audioBuffer`. -/
def stepB (st : StateB) : Ev → StateB × List Out
  | .geminiOpen => ({ st with wsOpen := true }, [Out.toGemini GeminiOut.setup, Out.toGemini GeminiOut.greeting])
  | .gemini m => (st, (handleGemini_part000 st.streamSid m).map Out.toTwilio)
  | .twilio m => handleTwilio_part003 st m

/-! ## Trace predicates -/

/-- Does the event carry the audio peer's `setupComplete` readiness
acknowledgement? -/
def isSetupCompleteEv : Ev → Bool
  | .gemini m => m.setupComplete
  | _ => false

/-- Is the event a telephony `start` event (the only binder of
`streamSid`)? -/
def isStartEv : Ev → Bool
  | .twilio (TwilioMsg.start _) => true
  | _ => false

/-- Is the action an outbound frame toward the telephony peer? -/
def isToTwilio : Out → Bool
  | .toTwilio _ => true
  | _ => false

/-- Is the action an uplink audio chunk forwarded to the audio peer? -/
def isUplinkAudio : Out → Bool
  | .toGemini (GeminiOut.realtimeAudio _) => true
  | .toGemini (GeminiOut.inputAudio _) => true
  | _ => false

/-- Does the audio-peer message carry `interrupted` under its
`serverContent` envelope? -/
def msgInterrupted (m : GeminiMsg) : Bool :=
  match m.serverContent with
  | some sc => sc.interrupted
  | none => false

/-! # Claims

One theorem per claim of the specification audit, in claim order. -/

/-- C1 (code_bug): the spec requires
`abs(decode(encode(x)) - x) <= quantization_step(x)` for every int16
sample; the code violates it already at `x = 0` (perfect silence).
`encodeMuLaw 0` yields wire byte `0xFF`; `decodeMuLaw 255` reconstructs
with the shift `12 - exponent` (instead of G.711's `exponent + 2`) and
returns `135036`, stored as `3964` in an `Int16Array` - an error of 3964
against a segment-0 quantization step of 8. -/
theorem c1_roundtrip_bound_violated_at_zero :
    encodeMuLawByte 0 = 255 ∧ decodeMuLaw 255 = 135036 ∧ muLawRoundTrip 0 = 3964 ∧
    quantStep 0 = 8 ∧ ¬((muLawRoundTrip 0 - 0).natAbs ≤ (quantStep 0).natAbs) := by
  decide

/-- C2 (code_bug): the spec requires `encode(decode(b)) == b` for every
wire byte; the code violates it at `b = 255` (0xFF, mu-law silence):
decoding yields 3964 after the `Int16Array` store, which re-encodes to
175, not 255.  The last conjunct shows the violation at the
buffer level exactly as the pipelines compose the two functions. -/
theorem c2_wire_idempotence_violated_at_255 :
    encodeMuLawByte (decodeMuLawI16 255) = 175 ∧ (175 : Nat) ≠ 255 ∧
    pcmToMulawBuf (mulawToPcmBuf [255]) = [175] := by
  decide

/-- C9 counterexample: at wire byte `b = 255` the table-based decoder of
part_002 yields `MU_LAW_TABLE[255 ^ 255] = MU_LAW_TABLE[0] = -32124`
while the formula-based `decodeMuLaw` yields 3964 (after the
`Int16Array` store), so the two decode variants are not equivalent. -/
theorem c9_decoders_differ_at_255 :
    tableDecode 255 = -32124 ∧ decodeMuLawI16 255 = 3964 ∧
    tableDecode 255 ≠ decodeMuLawI16 255 := by
  decide

set_option maxRecDepth 100000 in
/-- C9 (corrected): the two decode variants are not merely different
somewhere - the table-based decoder disagrees with the formula-based
decoder on every single byte value 0..255. -/
theorem c9_decoders_differ_everywhere (b : Nat) (hb : b < 256) :
    tableDecode b ≠ decodeMuLawI16 b := by
  revert hb
  revert b
  decide

/-- C9 witness: the disagreement theorem applied at byte 0. -/
theorem c9_decoders_differ_witness :
    (0 : Nat) < 256 ∧ tableDecode 0 ≠ decodeMuLawI16 0 :=
  ⟨by decide, c9_decoders_differ_everywhere 0 (by decide)⟩

/-! ## C6: resampler output lengths -/

/-- Length of the sample-and-hold upsampler output. -/
theorem upsampleDupSamples_length : ∀ xs : List Int, (upsampleDupSamples xs).length = 2 * xs.length
  | [] => rfl
  | x :: rest => by
    have ih := upsampleDupSamples_length rest
    simp only [upsampleDupSamples, List.length_cons]
    omega

/-- Length of part_000's averaging upsampler output. -/
theorem upsampleAvgFloorSamples_length : ∀ xs : List Int, (upsampleAvgFloorSamples xs).length = 2 * xs.length
  | [] => rfl
  | [_] => rfl
  | x :: y :: rest => by
    have ih := upsampleAvgFloorSamples_length (y :: rest)
    simp only [upsampleAvgFloorSamples, List.length_cons] at ih ⊢
    omega

/-- Length of part_003's averaging upsampler output. -/
theorem upsampleAvgRoundSamples_length : ∀ xs : List Int, (upsampleAvgRoundSamples xs).length = 2 * xs.length
  | [] => rfl
  | [_] => rfl
  | x :: y :: rest => by
    have ih := upsampleAvgRoundSamples_length (y :: rest)
    simp only [upsampleAvgRoundSamples, List.length_cons] at ih ⊢
    omega

/-- `Math.round(n / 3)` equals `floor((n + 1) / 3)`. -/
theorem jsRoundDiv_three (n : Nat) : jsRoundDiv n 3 = (n + 1) / 3 := by
  unfold jsRoundDiv
  omega

/-- C6 counterexample: on an input of `N = 2` samples, server.js's
decimation-by-3 `downsampleLinear` produces 1 output sample
(`Math.round(2/3) = 1`), not `floor(2/3) = 0` as the claim states. -/
theorem c6_downsampleLinear_length_cex :
    (downsampleLinearSamples [7, 7]).length = 1 ∧ ([7, 7] : List Int).length / 3 = 0 ∧
    (downsampleLinearSamples [7, 7]).length ≠ ([7, 7] : List Int).length / 3 := by
  decide

/-- C6 (corrected): for an input of `N` 16-bit samples, every
upsample-by-2 variant produces exactly `2N` samples; the part_000 /
part_001 / part_002 / part_003 / part_004 decimators produce exactly
`floor(N/3)` samples; but server.js's `downsampleLinear` produces
`Math.round(N/3) = floor((N+1)/3)` samples, which exceeds `floor(N/3)`
by one whenever `N = 2 (mod 3)`. -/
theorem c6_resampler_lengths (xs : List Int) :
    (upsampleLinearSamples xs).length = 2 * xs.length ∧
    (upsampleDupSamples xs).length = 2 * xs.length ∧
    (upsampleAvgFloorSamples xs).length = 2 * xs.length ∧
    (upsampleAvgRoundSamples xs).length = 2 * xs.length ∧
    (downsample3Samples xs).length = xs.length / 3 ∧
    (downsampleLinearSamples xs).length = (xs.length + 1) / 3 := by
  refine ⟨?_, upsampleDupSamples_length xs, upsampleAvgFloorSamples_length xs,
    upsampleAvgRoundSamples_length xs, ?_, ?_⟩
  · simp [upsampleLinearSamples]
  · simp [downsample3Samples]
  · simp [downsampleLinearSamples, jsRoundDiv_three]

/-! ## C7: odd-length chunks -/

/-- The `Int16Array` view of a buffer with an odd byte count reads
exactly the samples of the buffer without its trailing byte: JS `ToIndex`
truncates the fractional `length / 2`, so the view has `floor(n/2)`
elements and never touches the last byte.  No exception is thrown. -/
theorem bytesToI16_dropLast_of_odd : ∀ l : List Nat, l.length % 2 = 1 → bytesToI16 l = bytesToI16 l.dropLast
  | [], h => by simp at h
  | [a], h => rfl
  | a :: b :: rest, h => by
    have hr : rest.length % 2 = 1 := by
      simp only [List.length_cons] at h
      omega
    cases rest with
    | nil => simp at hr
    | cons c t =>
      have ih := bytesToI16_dropLast_of_odd (c :: t) hr
      simp [bytesToI16, List.dropLast, ih]

/-- C7 (confirmed): a chunk whose byte length is not a multiple of 2 is
silently truncated by the linear-PCM legs, not crashed on: the
`Int16Array` view drops the trailing odd byte (JS `ToIndex` truncation),
so `downsampleLinear` and `pcmToMulaw` behave exactly as on the chunk
with its last byte removed. -/
theorem c7_odd_chunk_truncated (bs : List Nat) (h : bs.length % 2 = 1) :
    downsampleLinearBuf bs = downsampleLinearBuf bs.dropLast ∧
    pcmToMulawBuf bs = pcmToMulawBuf bs.dropLast := by
  have key := bytesToI16_dropLast_of_odd bs h
  constructor
  · unfold downsampleLinearBuf
    rw [key]
  · unfold pcmToMulawBuf
    rw [key]

/-- C7 witness: the truncation theorem applied to the concrete 3-byte
chunk `[1, 2, 3]`. -/
theorem c7_odd_chunk_witness :
    ([1, 2, 3] : List Nat).length % 2 = 1 ∧
    (downsampleLinearBuf [1, 2, 3] = downsampleLinearBuf (([1, 2, 3] : List Nat).dropLast) ∧
     pcmToMulawBuf [1, 2, 3] = pcmToMulawBuf (([1, 2, 3] : List Nat).dropLast)) :=
  ⟨by decide, c7_odd_chunk_truncated [1, 2, 3] (by decide)⟩

/-! ## C3: interruption handling -/

/-- A message carrying only `serverContent.interrupted : true`, as the
audio peer sends when the caller talks over the model. -/
def interruptOnlyMsg : GeminiMsg :=
  { setupComplete := false, error := false,
    serverContent := some { modelTurn := none, interrupted := true, turnComplete := false } }

/-- C3 counterexample: in server.js variant 1 an interruption message
arriving with a bound streamSid produces no outbound telephony frame at
all - in particular no `clear` event - because its interrupted branch
only writes a log line. -/
theorem c3_server_sends_no_clear :
    handleGemini_server (some ("CA123")) interruptOnlyMsg = [] := rfl

/-- Element at the junction of an append. -/
theorem getD_append_self {α : Type} (A B : List α) (d : α) :
    (A ++ B).getD A.length d = B.getD 0 d := by
  induction A with
  | nil => rfl
  | cons a t ih => simpa [List.getD_cons_succ] using ih

/-- C3 (amended): in part_000 (same code in part_003/part_004), whenever
an audio-peer message carries `interrupted` under `serverContent` and a
truthy streamSid is bound, processing that message emits a `clear` frame
with the bound streamSid, positioned among that message's own frames -
hence before every frame (in particular every `media` frame) produced by
any later message of the turn. -/
theorem c3_part000_clear_before_later_frames (s : String) (hs : (s != "") = true)
    (m : GeminiMsg) (hm : msgInterrupted m = true) (post : List GeminiMsg) :
    ∃ k, k < (handleGemini_part000 (some s) m).length ∧
      (runGemini handleGemini_part000 (some s) (m :: post)).getD k (TwilioOut.clear ("")) = TwilioOut.clear s := by
  cases hsc : m.serverContent with
  | none => simp [msgInterrupted, hsc] at hm
  | some sc =>
    have hint : sc.interrupted = true := by simpa [msgInterrupted, hsc] using hm
    have hhandle : handleGemini_part000 (some s) m =
        (match sc.modelTurn with
         | none => []
         | some parts => partFrames (fun d => pcmToMulawBuf (downsample3Buf d)) (some s) parts) ++
        [TwilioOut.clear s] := by
      simp [handleGemini_part000, hsc, hint, hs]
    have hrun : runGemini handleGemini_part000 (some s) (m :: post) =
        handleGemini_part000 (some s) m ++ runGemini handleGemini_part000 (some s) post := rfl
    refine ⟨(handleGemini_part000 (some s) m).length - 1, ?_, ?_⟩
    · rw [hhandle]
      simp
    · rw [hrun, hhandle]
      rw [List.append_assoc]
      have hlen : ((match sc.modelTurn with
         | none => []
         | some parts => partFrames (fun d => pcmToMulawBuf (downsample3Buf d)) (some s) parts) ++
        [TwilioOut.clear s]).length - 1 =
          (match sc.modelTurn with
           | none => []
           | some parts => partFrames (fun d => pcmToMulawBuf (downsample3Buf d)) (some s) parts).length := by
        simp
      rw [hlen, getD_append_self]
      rfl

/-- C3 witness: the clear-forwarding theorem applied to the streamSid
`CA123`, the concrete interruption message, and an empty tail. -/
theorem c3_part000_clear_witness :
    (("CA123" : String) != "") = true ∧ msgInterrupted interruptOnlyMsg = true ∧
    (∃ k, k < (handleGemini_part000 (some ("CA123")) interruptOnlyMsg).length ∧
      (runGemini handleGemini_part000 (some ("CA123")) [interruptOnlyMsg]).getD k (TwilioOut.clear ("")) =
        TwilioOut.clear ("CA123")) :=
  ⟨by decide, by decide,
   c3_part000_clear_before_later_frames ("CA123") (by decide) interruptOnlyMsg (by decide) []⟩

/-! ## C4: uplink audio requires readiness -/

/-- One part_002 step, started before readiness and fed a non-ready
event, stays non-ready and forwards no uplink audio. -/
theorem stepR_no_uplink (st : StateR) (e : Ev) (hst : st.geminiReady = false)
    (he : isSetupCompleteEv e = false) :
    (stepR st e).1.geminiReady = false ∧ ∀ o ∈ (stepR st e).2, isUplinkAudio o = false := by
  cases e with
  | geminiOpen =>
    refine ⟨hst, ?_⟩
    intro o ho
    simp only [stepR, List.mem_singleton] at ho
    simp [ho, isUplinkAudio]
  | gemini m =>
    have hm : m.setupComplete = false := by simpa [isSetupCompleteEv] using he
    by_cases herr : m.error = true
    · simp [stepR, handleGemini_part002, herr, hst]
    · cases hsc : m.serverContent with
      | none => simp [stepR, handleGemini_part002, herr, hm, hst, hsc]
      | some sc =>
        cases hmt : sc.modelTurn with
        | none => simp [stepR, handleGemini_part002, herr, hm, hst, hsc, hmt]
        | some parts =>
          cases hsid : st.streamSid with
          | none => simp [stepR, handleGemini_part002, herr, hm, hst, hsc, hmt, hsid]
          | some s =>
            by_cases hse : (s != "") = true
            · refine ⟨by simp [stepR, handleGemini_part002, herr, hm, hst, hsc, hmt, hsid, hse], ?_⟩
              intro o ho
              simp only [stepR, handleGemini_part002, herr, hm, hst, hsc, hmt, hsid, hse,
                Bool.false_and, Bool.false_eq_true, if_false, if_true, List.mem_filterMap] at ho
              obtain ⟨p, hp, hf⟩ := ho
              cases hd : p.inlineData with
              | none => simp [hd] at hf
              | some d =>
                simp only [hd] at hf
                by_cases hsw : d.mimeType.startsWith ("audio/pcm") = true
                · simp only [hsw, if_true, Option.some_inj] at hf
                  simp [← hf, isUplinkAudio]
                · simp [hsw] at hf
            · simp [stepR, handleGemini_part002, herr, hm, hst, hsc, hmt, hsid, hse]
  | twilio m =>
    cases m with
    | start s => simp [stepR, handleTwilio_part002, hst]
    | media p => simp [stepR, handleTwilio_part002, hst]
    | stop => simp [stepR, handleTwilio_part002, hst, isUplinkAudio]
    | other => simp [stepR, handleTwilio_part002, hst]

/-- Run-level invariant behind C4: starting from a non-ready state, a
run without any `setupComplete` event forwards no uplink audio. -/
theorem runR_no_uplink (evs : List Ev) : ∀ st : StateR, st.geminiReady = false →
    (∀ e ∈ evs, isSetupCompleteEv e = false) →
    ∀ o ∈ (runEvents stepR st evs).2, isUplinkAudio o = false := by
  induction evs with
  | nil =>
    intro st _ _ o ho
    simp [runEvents] at ho
  | cons e rest ih =>
    intro st hst hevs o ho
    have he : isSetupCompleteEv e = false := hevs e (by simp)
    have hstep := stepR_no_uplink st e hst he
    simp only [runEvents, List.mem_append] at ho
    cases ho with
    | inl h1 => exact hstep.2 o h1
    | inr h2 => exact ih (stepR st e).1 hstep.1 (fun x hx => hevs x (by simp [hx])) o h2

/-- C4 (amended): in part_002 (the variant with the `geminiReady`
guard), for every interleaving of inbound events containing no
`setupComplete` acknowledgement, no uplink audio chunk is forwarded to
the audio peer; pre-ready media events are discarded, never sent. -/
theorem c4_part002_no_uplink_before_ready (evs : List Ev)
    (h : ∀ e ∈ evs, isSetupCompleteEv e = false) :
    ∀ o ∈ (runEvents stepR initR evs).2, isUplinkAudio o = false :=
  runR_no_uplink evs initR rfl h

/-- The concrete pre-ready interleaving used against C4: socket opens,
the stream starts, one media chunk arrives - and no `setupComplete` has
been processed. -/
def c4Evs : List Ev := [Ev.geminiOpen, Ev.twilio (TwilioMsg.start ("CA1")), Ev.twilio (TwilioMsg.media [255])]

/-- C4 counterexample: server.js variant 1 has no readiness guard: on
the same pre-ready interleaving it forwards the media chunk to the audio
peer as soon as the socket is open, before any `setupComplete` has been
processed. -/
theorem c4_server_forwards_before_ready :
    (∀ e ∈ c4Evs, isSetupCompleteEv e = false) ∧
    (runEvents stepS initS c4Evs).2.any isUplinkAudio = true := by
  decide

/-- C4 witness: the part_002 theorem applied to the concrete pre-ready
interleaving. -/
theorem c4_part002_witness :
    (∀ e ∈ c4Evs, isSetupCompleteEv e = false) ∧
    (∀ o ∈ (runEvents stepR initR c4Evs).2, isUplinkAudio o = false) :=
  ⟨by decide, c4_part002_no_uplink_before_ready c4Evs (by decide)⟩

/-! ## C5: no telephony frame before the streamSid is bound -/

/-- With no streamSid bound (`null`, hence falsy), server.js variant 1's
audio-peer handler emits nothing: every media frame sits behind the
`if (streamSid)` guard. -/
theorem handleGemini_server_none (m : GeminiMsg) : handleGemini_server none m = [] := by
  unfold handleGemini_server
  cases hsc : m.serverContent with
  | none => simp
  | some sc =>
    cases hmt : sc.modelTurn with
    | none => simp [hmt]
    | some parts =>
      simp only [hmt, partFrames, List.filterMap_eq_nil_iff]
      intro p hp
      cases hd : p.inlineData with
      | none => simp [hd]
      | some d => simp [hd]

/-- One server.js variant-1 step, fed a non-`start` event from a state
with no streamSid, keeps the streamSid unbound and sends nothing toward
the telephony peer. -/
theorem stepS_no_twilio (st : StateS) (e : Ev) (hst : st.streamSid = none)
    (he : isStartEv e = false) :
    (stepS st e).1.streamSid = none ∧ ∀ o ∈ (stepS st e).2, isToTwilio o = false := by
  cases e with
  | geminiOpen =>
    refine ⟨hst, ?_⟩
    intro o ho
    simp only [stepS, List.mem_cons, List.mem_singleton, List.not_mem_nil, or_false] at ho
    cases ho with
    | inl h => simp [h, isToTwilio]
    | inr h => simp [h, isToTwilio]
  | gemini m => simp [stepS, hst, handleGemini_server_none]
  | twilio m =>
    cases m with
    | start s => simp [isStartEv] at he
    | media p =>
      cases hw : st.wsOpen
      · simp [stepS, handleTwilio_server, hw, hst]
      · simp [stepS, handleTwilio_server, hw, hst, isToTwilio]
    | stop => simp [stepS, handleTwilio_server, hst, isToTwilio]
    | other => simp [stepS, handleTwilio_server, hst]

/-- One part_002 step, fed a non-`start` event from a state with no
streamSid, keeps the streamSid unbound and sends nothing toward the
telephony peer (the part_002 handler returns early on
`!parts || !streamSid`). -/
theorem stepR_no_twilio (st : StateR) (e : Ev) (hst : st.streamSid = none)
    (he : isStartEv e = false) :
    (stepR st e).1.streamSid = none ∧ ∀ o ∈ (stepR st e).2, isToTwilio o = false := by
  cases e with
  | geminiOpen =>
    refine ⟨hst, ?_⟩
    intro o ho
    simp only [stepR, List.mem_singleton] at ho
    simp [ho, isToTwilio]
  | gemini m =>
    by_cases herr : m.error = true
    · simp [stepR, handleGemini_part002, herr, hst]
    · by_cases hsu : (m.setupComplete && !st.geminiReady) = true
      · simp [stepR, handleGemini_part002, herr, hsu, hst]
      · cases hsc : m.serverContent with
        | none => simp [stepR, handleGemini_part002, herr, hsu, hst, hsc]
        | some sc =>
          cases hmt : sc.modelTurn with
          | none => simp [stepR, handleGemini_part002, herr, hsu, hst, hsc, hmt]
          | some parts => simp [stepR, handleGemini_part002, herr, hsu, hst, hsc, hmt]
  | twilio m =>
    cases m with
    | start s => simp [isStartEv] at he
    | media p =>
      cases hr : st.geminiReady
      · simp [stepR, handleTwilio_part002, hr, hst]
      · cases hw : st.wsOpen
        · simp [stepR, handleTwilio_part002, hr, hw, hst]
        · simp [stepR, handleTwilio_part002, hr, hw, hst, isToTwilio]
    | stop => simp [stepR, handleTwilio_part002, hst, isToTwilio]
    | other => simp [stepR, handleTwilio_part002, hst]

/-- Run-level invariant for server.js variant 1: a run with no `start`
event keeps the streamSid unbound and sends nothing toward the
telephony peer. -/
theorem runS_no_twilio (evs : List Ev) : ∀ st : StateS, st.streamSid = none →
    (∀ e ∈ evs, isStartEv e = false) →
    ∀ o ∈ (runEvents stepS st evs).2, isToTwilio o = false := by
  induction evs with
  | nil =>
    intro st _ _ o ho
    simp [runEvents] at ho
  | cons e rest ih =>
    intro st hst hevs o ho
    have hstep := stepS_no_twilio st e hst (hevs e (by simp))
    simp only [runEvents, List.mem_append] at ho
    cases ho with
    | inl h1 => exact hstep.2 o h1
    | inr h2 => exact ih (stepS st e).1 hstep.1 (fun x hx => hevs x (by simp [hx])) o h2

/-- Run-level invariant for part_002: a run with no `start` event keeps
the streamSid unbound and sends nothing toward the telephony peer. -/
theorem runR_no_twilio (evs : List Ev) : ∀ st : StateR, st.streamSid = none →
    (∀ e ∈ evs, isStartEv e = false) →
    ∀ o ∈ (runEvents stepR st evs).2, isToTwilio o = false := by
  induction evs with
  | nil =>
    intro st _ _ o ho
    simp [runEvents] at ho
  | cons e rest ih =>
    intro st hst hevs o ho
    have hstep := stepR_no_twilio st e hst (hevs e (by simp))
    simp only [runEvents, List.mem_append] at ho
    cases ho with
    | inl h1 => exact hstep.2 o h1
    | inr h2 => exact ih (stepR st e).1 hstep.1 (fun x hx => hevs x (by simp [hx])) o h2

/-- C5 (confirmed): in server.js variant 1 and in part_002, no outbound
frame (media or clear) is sent toward the telephony peer by any event
sequence containing no `start` event - the streamSid guard blocks them
all; in particular a `stop` with no prior `start` closes the audio-peer
connection and emits exactly that close, no telephony frame. -/
theorem c5_no_telephony_frames_before_start :
    (∀ evs : List Ev, (∀ e ∈ evs, isStartEv e = false) →
      ∀ o ∈ (runEvents stepS initS evs).2, isToTwilio o = false) ∧
    (∀ evs : List Ev, (∀ e ∈ evs, isStartEv e = false) →
      ∀ o ∈ (runEvents stepR initR evs).2, isToTwilio o = false) ∧
    (runEvents stepS initS [Ev.twilio TwilioMsg.stop]).2 = [Out.closeGemini] ∧
    (runEvents stepR initR [Ev.twilio TwilioMsg.stop]).2 = [Out.closeGemini] :=
  ⟨fun evs h => runS_no_twilio evs initS rfl h,
   fun evs h => runR_no_twilio evs initR rfl h,
   rfl, rfl⟩

/-- The concrete start-less event sequence used as C5 witness: the
audio-peer socket opens, an audio-peer message with an audio part
arrives, a media chunk arrives, then `stop` - all without `start`. -/
def c5Evs : List Ev :=
  [Ev.geminiOpen,
   Ev.gemini { setupComplete := false, error := false,
               serverContent := some { modelTurn := some [{ inlineData := some { mimeType := "audio/pcm;rate=24000", data := [1, 2, 3, 4, 5, 6] } }],
                                       interrupted := false, turnComplete := false } },
   Ev.twilio (TwilioMsg.media [255]),
   Ev.twilio TwilioMsg.stop]

/-- C5 witness: the theorem applied to the concrete start-less run. -/
theorem c5_no_telephony_witness :
    (∀ e ∈ c5Evs, isStartEv e = false) ∧
    (∀ o ∈ (runEvents stepS initS c5Evs).2, isToTwilio o = false) :=
  ⟨by decide, c5_no_telephony_frames_before_start.1 c5Evs (by decide)⟩

/-! ## C8: malformed frames -/

/-- Dropping a malformed frame leaves a guarded run unchanged: the
server.js handler returns with the same state and no output, so the run
over any surrounding frames is the run without that frame. -/
theorem runTwilioRaw_server_drop_malformed :
    ∀ (pre : List RawFrame) (st : StateS) (post : List RawFrame),
      runTwilioRaw_server st (pre ++ none :: post) = runTwilioRaw_server st (pre ++ post)
  | [], st, post => rfl
  | f :: t, st, post => by
    have ih := runTwilioRaw_server_drop_malformed t (handleTwilioRaw_server st f).1 post
    simp only [List.cons_append, runTwilioRaw_server, List.append_eq]
    rw [ih]

/-- C8 (amended): in server.js variant 1, whose telephony handler wraps
everything in try/catch, a malformed frame (unparseable JSON or a frame
whose required-field access throws) is dropped: the handler returns with
the state untouched and no output, and a run containing the malformed
frame equals the run without it (subsequent frames are still processed).
In part_001's telephony handler, `JSON.parse` is unguarded, so the same
malformed frame makes the handler throw instead. -/
theorem c8_malformed_frame_handling :
    (∀ st : StateS, handleTwilioRaw_server st none = (st, [])) ∧
    (∀ (pre : List RawFrame) (st : StateS) (post : List RawFrame),
      runTwilioRaw_server st (pre ++ none :: post) = runTwilioRaw_server st (pre ++ post)) ∧
    (∀ st : StateS, handleTwilioRaw_part001 st none = Except.error ()) :=
  ⟨fun _ => rfl, runTwilioRaw_server_drop_malformed, fun _ => rfl⟩

/-- C8 counterexample: a malformed frame on part_001's telephony channel
is not dropped - the unguarded `JSON.parse` raises, modelled as the
handler returning an error instead of a state and outputs. -/
theorem c8_part001_malformed_throws :
    handleTwilioRaw_part001 initS none = Except.error () := rfl

/-! ## C10: part_003 buffering -/

/-- One part_003 step from a state whose buffer holds at most 4 chunks:
the buffer again holds at most 4 chunks afterwards, and any uplink audio
message emitted is the transcoded concatenation of exactly
`BUFFER_SIZE = 5` chunks. -/
theorem stepB_buffer_inv (st : StateB) (e : Ev) (hst : st.audioBuffer.length ≤ 4) :
    (stepB st e).1.audioBuffer.length ≤ 4 ∧
    ∀ o ∈ (stepB st e).2, ∀ pay, o = Out.toGemini (GeminiOut.realtimeAudio pay) →
      ∃ chunks : List (List Nat), chunks.length = BUFFER_SIZE ∧
        pay = transcodeBuffered (concatChunks chunks) := by
  cases e with
  | geminiOpen =>
    refine ⟨hst, ?_⟩
    intro o ho pay hpay
    simp only [stepB, List.mem_cons, List.mem_singleton, List.not_mem_nil, or_false] at ho
    cases ho with
    | inl h => simp [h] at hpay
    | inr h => simp [h] at hpay
  | gemini m =>
    refine ⟨hst, ?_⟩
    intro o ho pay hpay
    simp only [stepB, List.mem_map] at ho
    obtain ⟨f, _, hf⟩ := ho
    rw [← hf] at hpay
    simp at hpay
  | twilio m =>
    cases m with
    | start s => simp [stepB, handleTwilio_part003, hst]
    | media p =>
      cases hw : st.wsOpen
      · simp [stepB, handleTwilio_part003, hw, hst]
      · have hstep : stepB st (Ev.twilio (TwilioMsg.media p)) =
            if BUFFER_SIZE ≤ (st.audioBuffer ++ [p]).length then
              ({ st with audioBuffer := [] },
               [Out.toGemini (GeminiOut.realtimeAudio (transcodeBuffered (concatChunks (st.audioBuffer ++ [p]))))])
            else ({ st with audioBuffer := st.audioBuffer ++ [p] }, []) := by
          simp [stepB, handleTwilio_part003, hw]
        rw [hstep]
        by_cases h5 : BUFFER_SIZE ≤ (st.audioBuffer ++ [p]).length
        · rw [if_pos h5]
          have hlen : (st.audioBuffer ++ [p]).length = BUFFER_SIZE := by
            simp only [List.length_append, List.length_singleton, BUFFER_SIZE] at h5 ⊢
            omega
          refine ⟨by simp, ?_⟩
          intro o ho pay hpay
          simp only [List.mem_singleton] at ho
          subst ho
          simp only [Out.toGemini.injEq, GeminiOut.realtimeAudio.injEq] at hpay
          exact ⟨st.audioBuffer ++ [p], hlen, hpay.symm⟩
        · rw [if_neg h5]
          have hlen : (st.audioBuffer ++ [p]).length ≤ 4 := by
            simp only [List.length_append, List.length_singleton, BUFFER_SIZE] at h5 ⊢
            omega
          refine ⟨by simpa using hlen, ?_⟩
          intro o ho pay hpay
          simp at ho
    | stop =>
      refine ⟨hst, ?_⟩
      intro o ho pay hpay
      simp only [stepB, handleTwilio_part003, List.mem_singleton] at ho
      simp [ho] at hpay
    | other => simp [stepB, handleTwilio_part003, hst]

/-- Run-level buffering invariant of part_003. -/
theorem runB_buffer_inv (evs : List Ev) : ∀ st : StateB, st.audioBuffer.length ≤ 4 →
    (runEvents stepB st evs).1.audioBuffer.length ≤ 4 ∧
    ∀ o ∈ (runEvents stepB st evs).2, ∀ pay, o = Out.toGemini (GeminiOut.realtimeAudio pay) →
      ∃ chunks : List (List Nat), chunks.length = BUFFER_SIZE ∧
        pay = transcodeBuffered (concatChunks chunks) := by
  induction evs with
  | nil =>
    intro st hst
    exact ⟨hst, by intro o ho; simp [runEvents] at ho⟩
  | cons e rest ih =>
    intro st hst
    have hstep := stepB_buffer_inv st e hst
    have hrest := ih (stepB st e).1 hstep.1
    refine ⟨hrest.1, ?_⟩
    intro o ho pay hpay
    simp only [runEvents, List.mem_append] at ho
    cases ho with
    | inl h1 => exact hstep.2 o h1 pay hpay
    | inr h2 => exact hrest.2 o h2 pay hpay

/-- C10 (confirmed): in the buffering variant part_003, every uplink
audio message sent to the audio peer is the single transcoded
concatenation of exactly `BUFFER_SIZE = 5` buffered chunks (the buffer
is emptied by the send), and after any inbound event sequence fewer than
5 chunks remain buffered - a final group of fewer than 5 chunks is never
forwarded (a `stop` only closes the audio-peer socket). -/
theorem c10_buffered_uplink (evs : List Ev) :
    (runEvents stepB initB evs).1.audioBuffer.length < BUFFER_SIZE ∧
    ∀ o ∈ (runEvents stepB initB evs).2, ∀ pay, o = Out.toGemini (GeminiOut.realtimeAudio pay) →
      ∃ chunks : List (List Nat), chunks.length = BUFFER_SIZE ∧
        pay = transcodeBuffered (concatChunks chunks) := by
  have h := runB_buffer_inv evs initB (by simp [initB])
  refine ⟨?_, h.2⟩
  have := h.1
  simp only [BUFFER_SIZE]
  omega

/-- The concrete run used as C10 witness: socket opens, then exactly five
media chunks arrive, producing one flush. -/
def c10Evs : List Ev :=
  [Ev.geminiOpen, Ev.twilio (TwilioMsg.media [1]), Ev.twilio (TwilioMsg.media [2]),
   Ev.twilio (TwilioMsg.media [3]), Ev.twilio (TwilioMsg.media [4]), Ev.twilio (TwilioMsg.media [5])]

/-- The payload part_003 flushes after the fifth chunk of `c10Evs`. -/
def c10Pay : List Nat := transcodeBuffered (concatChunks [[1], [2], [3], [4], [5]])

/-- C10 witness: on the concrete run the flushed message is in the
output trace, and the theorem yields its 5-chunk decomposition. -/
theorem c10_buffered_uplink_witness :
    Out.toGemini (GeminiOut.realtimeAudio c10Pay) ∈ (runEvents stepB initB c10Evs).2 ∧
    (∃ chunks : List (List Nat), chunks.length = BUFFER_SIZE ∧
      c10Pay = transcodeBuffered (concatChunks chunks)) :=
  ⟨by decide, (c10_buffered_uplink c10Evs).2 (Out.toGemini (GeminiOut.realtimeAudio c10Pay))
    (by decide) c10Pay rfl⟩

end GV
